import Mathlib

/-!
Verification of the `VerticalSplitDiffWorker` (package `worker`,
`vertical_split_diff.go`): the phase-ordered worker that diffs a destination
shard against its source shard during a vertical split.

The Go worker is shallowly embedded as a deterministic interpreter over an
oracle environment `Env` that fixes the outcome of every external interaction
(topology reads, tablet-manager RPCs, schema fetches, table scans, row
differs, compensation executions).  The worker's observable behaviour is
threaded through an explicit record `WState` holding:
  - the current `WorkerState` and the ordered trace of all `SetState` calls;
  - the compensation chain (`cleaner`), in registration order, and the list
    of compensations executed during cleanup;
  - the ordered trace of remote calls, each tagged with the identifier of the
    `context.WithTimeout(ctx, *remoteActionsTimeout)` context it was given
    (`0` meaning the phase's outer context, i.e. no remote-action deadline);
  - the error-level log lines the worker emits.

Concurrency in the source (the two schema-fetch goroutines, the per-table
diff goroutines capped by a semaphore) is modelled by sequentializing the
effects: the two schema fetches are applied in either order (a `Bool`
parameter), and the table diffs as a left fold over the destination table
definitions.  The properties proved below are invariant under the
interleavings the Go scheduler could produce (they concern membership,
emptiness and state ordering, not the relative order of concurrently
recorded errors).  The semaphore bound and real-time deadline expiry are not
modelled; deadlines appear structurally as the context tag of each call.
-/

namespace Worker

/-- The worker states, in the order the state machine traverses them.
`notStarted` is the state a fresh `StatusWorker` holds before `Run` begins
(the `StatusWorker` base is not part of the analysed sources; its plain
set-once-read-many state variable is modelled as a field plus a trace). -/
inductive WorkerState
  | notStarted
  | init
  | findTargets
  | syncReplication
  | diff
  | diffWillFail
  | cleanUp
  | done
  | error
deriving DecidableEq, Repr

/-- Position of a state in the forward order of the state machine. -/
def WorkerState.idx : WorkerState → Nat
  | .notStarted => 0
  | .init => 1
  | .findTargets => 2
  | .syncReplication => 3
  | .diff => 4
  | .diffWillFail => 5
  | .cleanUp => 6
  | .done => 7
  | .error => 8

/-- The transition discipline the spec asserts for consecutive `SetState`
calls: strictly forward in the canonical order, with the single permitted
self-repetition at `DiffWillFail` (each further soft failure re-sets that
state without aborting the remaining comparisons). -/
def stepOK (a b : WorkerState) : Prop :=
  a.idx < b.idx ∨ (a = .diffWillFail ∧ b = .diffWillFail)

instance (a b : WorkerState) : Decidable (stepOK a b) := by
  unfold stepOK; infer_instance

/-- Compensating actions registered with the `wrangler.Cleaner`.
`startVReplication uid` restarts filtered replication on the destination
master (registered in step 1 of `synchronizeReplication`);
`startReplicationSource`/`startReplicationDest` restart plain replication on
the source/destination diff tablet; the two `changeTabletType` entries are
the type-restoring actions `FindWorkerTablet` registers for the tablets it
reserves. -/
inductive CleanerAction
  | startVReplication (uid : Nat)
  | startReplicationSource
  | startReplicationDest
  | changeTabletTypeDest
  | changeTabletTypeSource
deriving DecidableEq, Repr

/-- The remote interactions the worker performs, in the vocabulary of the
source.  The table-scoped calls carry the table name. -/
inductive RemoteCall
  | getKeyspace
  | getShard
  | findTabletDest
  | findTabletSource
  | getTabletMaster
  | stopVReplication
  | readVReplicationPos
  | getTabletSource
  | stopReplMinSource
  | startVReplicationUntil
  | vreplicationWaitForPos
  | primaryPosition
  | getTabletDest
  | stopReplMinDest
  | startVReplicationFinal
  | getSchemaDest
  | getSchemaSource
  | tableScanSource (table : String)
  | tableScanDest (table : String)
  | differGo (table : String)
deriving DecidableEq, Repr

/-- A remote call opens a row stream or drives the row differ (these are the
calls the diff-phase goroutines make against the per-table readers). -/
def RemoteCall.isRowStreamCall : RemoteCall → Bool
  | .tableScanSource _ => true
  | .tableScanDest _ => true
  | .differGo _ => true
  | _ => false

/-- Keyspace metadata, reduced to the field `init` validates. -/
structure KeyspaceInfo where
  servedFroms : List Unit
deriving DecidableEq, Repr

/-- One entry of `ShardInfo.SourceShards`. -/
structure SourceShard where
  uid : Nat
  tables : List String
deriving DecidableEq, Repr

/-- Destination shard metadata, reduced to the fields the worker reads. -/
structure ShardInfo where
  sourceShards : List SourceShard
  hasPrimary : Bool
deriving DecidableEq, Repr

/-- A table definition; only the name is consulted by the worker itself. -/
structure TableDefinition where
  name : String
deriving DecidableEq, Repr

/-- A fetched schema: the list of table definitions. -/
structure SchemaDefinition where
  tableDefinitions : List TableDefinition
deriving DecidableEq, Repr

/-- The proto query result `ReadVReplicationPos` returns; the worker checks
it holds exactly one row with exactly one value. -/
structure QueryResult where
  rows : List (List String)
deriving DecidableEq, Repr

/-- What `differ.Go` reports for one table. -/
structure DiffReport where
  hasDifferences : Bool
  summary : String
deriving DecidableEq, Repr

/-- The worker's observable execution record. -/
structure WState where
  state : WorkerState
  stateTrace : List WorkerState
  cleaner : List CleanerAction
  executedCleanup : List CleanerAction
  calls : List (RemoteCall × Nat)
  logs : List String
  destinationSchemaDefinition : Option SchemaDefinition
  sourceSchemaDefinition : Option SchemaDefinition
deriving DecidableEq, Repr

/-- The record a fresh worker starts from. -/
def initialWState : WState :=
  { state := .notStarted
    stateTrace := []
    cleaner := []
    executedCleanup := []
    calls := []
    logs := []
    destinationSchemaDefinition := none
    sourceSchemaDefinition := none }

/-- `vsdw.SetState(x)`: sets the current state and appends it to the trace. -/
def setState (s : WState) (x : WorkerState) : WState :=
  { s with state := x, stateTrace := s.stateTrace ++ [x] }

/-- Record one remote call together with the timeout-context tag it was
given (`0` = the phase's outer context, no remote-action deadline;
a positive tag numbers the `context.WithTimeout` instance in source order). -/
def recordCall (s : WState) (c : RemoteCall) (ctxTag : Nat) : WState :=
  { s with calls := s.calls ++ [(c, ctxTag)] }

/-- Register one compensating action with the cleaner (append-only). -/
def addCleanup (s : WState) (a : CleanerAction) : WState :=
  { s with cleaner := s.cleaner ++ [a] }

/-- Record one error-level log line (informational logs are elided). -/
def logError (s : WState) (m : String) : WState :=
  { s with logs := s.logs ++ [m] }

/-- The static configuration the worker is constructed with that reaches the
messages it produces. -/
structure Config where
  keyspace : String
  shard : String
deriving DecidableEq, Repr

/-- Oracle for every external interaction of one `Run`.  Each field fixes the
outcome the corresponding collaborator would produce; the cancellation flags
encode whether the external context is cancelled at the corresponding
between-phase check. -/
structure Env where
  getKeyspace : Except String KeyspaceInfo
  getShard : Except String ShardInfo
  cancelAfterInit : Bool
  cancelAfterFindTargets : Bool
  cancelAfterSync : Bool
  cancelAfterDiff : Bool
  findTabletDest : Except String Unit
  findTabletSource : Except String Unit
  getTabletMaster : Except String Unit
  stopVReplication : Except String Unit
  readVReplicationPos : Except String QueryResult
  getTabletSource : Except String Unit
  stopReplMinSource : Except String String
  startVReplicationUntil : Except String Unit
  vreplicationWaitForPos : Except String Unit
  primaryPosition : Except String String
  getTabletDest : Except String Unit
  stopReplMinDest : Except String String
  startVReplicationFinal : Except String Unit
  getSchemaDest : Except String SchemaDefinition
  getSchemaSource : Except String SchemaDefinition
  diffSchemaErrors : List String
  tableScanSource : String → Except String Unit
  tableScanDest : String → Except String Unit
  newRowDiffer : String → Except String Unit
  differGo : String → Except String DiffReport
  cleanupFails : CleanerAction → Option String

/-- `vterrors.Wrap(err, msg)`: prefix the wrapping message. -/
def wrapErr (msg e : String) : String := msg ++ ": " ++ e

/-- `AllErrorRecorder.Error()`: the recorded errors joined by newlines
(the recorder itself is the accumulated `List String`). -/
def recErrorStr (rec : List String) : String := String.intercalate "\x0a" rec

/-- Modelled from the spec: `checkDone` (package `worker`, not among the
analysed sources) reports the external cancellation signal between phases;
when the context is cancelled it returns the context's error. -/
def ctxCanceledMsg : String := "context canceled"

/-- The `init` phase (`vertical_split_diff.go:177-207`): read and validate
keyspace and shard metadata.  On success it returns the shard info together
with its single source shard. -/
def initPhase (env : Env) (cfg : Config) (s : WState) :
    WState × Except String (ShardInfo × SourceShard) :=
  let s := setState s .init
  let s := recordCall s .getKeyspace 0
  match env.getKeyspace with
  | .error e => (s, .error (wrapErr ("cannot read keyspace " ++ cfg.keyspace) e))
  | .ok ki =>
    if ki.servedFroms.isEmpty then
      (s, .error ("keyspace " ++ cfg.keyspace ++ " has no KeyspaceServedFrom"))
    else
      let s := recordCall s .getShard 0
      match env.getShard with
      | .error e =>
          (s, .error (wrapErr ("cannot read shard " ++ cfg.keyspace ++ "/" ++ cfg.shard) e))
      | .ok si =>
        match si.sourceShards with
        | [ss] =>
            if ss.tables.isEmpty then
              (s, .error ("shard " ++ cfg.keyspace ++ "/" ++ cfg.shard
                    ++ " has no tables in source shard[0]"))
            else if si.hasPrimary then (s, .ok (si, ss))
            else
              (s, .error ("shard " ++ cfg.keyspace ++ "/" ++ cfg.shard ++ " has no master"))
        | _ =>
            (s, .error ("shard " ++ cfg.keyspace ++ "/" ++ cfg.shard
                  ++ " has bad number of source shards"))

/-- The `findTargets` phase (`vertical_split_diff.go:213-240`): reserve one
tablet on each side via `FindWorkerTablet`.  Modelled from the spec:
`FindWorkerTablet` (not among the analysed sources) changes the chosen
tablet's type and registers the type-restoring action with the cleaner
before returning success. -/
def findTargetsPhase (env : Env) (s : WState) : WState × Except String Unit :=
  let s := setState s .findTargets
  let s := recordCall s .findTabletDest 0
  match env.findTabletDest with
  | .error e => (s, .error (wrapErr "FindWorkerTablet() failed for destination" e))
  | .ok _ =>
    let s := addCleanup s .changeTabletTypeDest
    let s := recordCall s .findTabletSource 0
    match env.findTabletSource with
    | .error e => (s, .error (wrapErr "FindWorkerTablet() failed for source" e))
    | .ok _ => (addCleanup s .changeTabletTypeSource, .ok ())

/-- The `synchronizeReplication` phase (`vertical_split_diff.go:260-351`).
The positive context tags 1-7 number the seven `context.WithTimeout`
instances the phase creates, in source order; calls sharing a tag share
that deadline. -/
def syncPhase (env : Env) (ss : SourceShard) (s : WState) : WState × Except String Unit :=
  let s := setState s .syncReplication
  let s := recordCall s .getTabletMaster 1
  match env.getTabletMaster with
  | .error e =>
      (s, .error (wrapErr "synchronizeReplication: cannot get Tablet record for master" e))
  | .ok _ =>
    -- 1 - stop the master binlog replication, get its current position
    let s := recordCall s .stopVReplication 2
    match env.stopVReplication with
    | .error e => (s, .error (wrapErr "Stop VReplication on master failed" e))
    | .ok _ =>
      let s := addCleanup s (.startVReplication ss.uid)
      let s := recordCall s .readVReplicationPos 2
      match env.readVReplicationPos with
      | .error e => (s, .error (wrapErr "VReplicationExec(stop) for master failed" e))
      | .ok qr =>
        if qr.rows.length ≠ 1 ∨ (qr.rows.headD []).length ≠ 1 then
          (s, .error "unexpected result while reading position")
        else
          -- 2 - stop replication on the source tablet
          let s := recordCall s .getTabletSource 3
          match env.getTabletSource with
          | .error e => (s, .error e)
          | .ok _ =>
            let s := recordCall s .stopReplMinSource 3
            match env.stopReplMinSource with
            | .error e =>
                (s, .error (wrapErr "cannot stop replica at right binlog position" e))
            | .ok _mysqlPos =>
              let s := addCleanup s .startReplicationSource
              -- 3 - restart the master until it catches up
              let s := recordCall s .startVReplicationUntil 4
              match env.startVReplicationUntil with
              | .error e => (s, .error (wrapErr "VReplication(start until) for master failed" e))
              | .ok _ =>
                let s := recordCall s .vreplicationWaitForPos 4
                match env.vreplicationWaitForPos with
                | .error e => (s, .error (wrapErr "VReplicationWaitForPos for master failed" e))
                | .ok _ =>
                  let s := recordCall s .primaryPosition 4
                  match env.primaryPosition with
                  | .error e => (s, .error (wrapErr "PrimaryPosition for master failed" e))
                  | .ok _masterPos =>
                    -- 4 - wait for the destination tablet, stop its replication
                    let s := recordCall s .getTabletDest 5
                    match env.getTabletDest with
                    | .error e => (s, .error e)
                    | .ok _ =>
                      let s := recordCall s .stopReplMinDest 6
                      match env.stopReplMinDest with
                      | .error e =>
                          (s, .error (wrapErr "StopReplicationMinimum on destination failed" e))
                      | .ok _ =>
                        let s := addCleanup s .startReplicationDest
                        -- 5 - restart filtered replication on the master
                        let s := recordCall s .startVReplicationFinal 7
                        match env.startVReplicationFinal with
                        | .error e => (s, .error (wrapErr "VReplicationExec(start) failed" e))
                        | .ok _ => (s, .ok ())

/-- `markAsWillFail` (`vertical_split_diff.go:463-467`): record the error in
the shared recorder and move the worker state to `DiffWillFail`. -/
def markAsWillFail (sr : WState × List String) (e : String) : WState × List String :=
  (setState sr.1 .diffWillFail, sr.2 ++ [e])

/-- Effect of the destination schema-fetch goroutine
(`vertical_split_diff.go:365-377`); its `context.WithTimeout` carries tag 8. -/
def fetchDestinationSchema (env : Env) (sr : WState × List String) : WState × List String :=
  let s := recordCall sr.1 .getSchemaDest 8
  match env.getSchemaDest with
  | .error e => markAsWillFail (s, sr.2) e
  | .ok d => ({ s with destinationSchemaDefinition := some d }, sr.2)

/-- Effect of the source schema-fetch goroutine
(`vertical_split_diff.go:378-391`); its `context.WithTimeout` carries tag 9. -/
def fetchSourceSchema (env : Env) (sr : WState × List String) : WState × List String :=
  let s := recordCall sr.1 .getSchemaSource 9
  match env.getSchemaSource with
  | .error e => markAsWillFail (s, sr.2) e
  | .ok d => ({ s with sourceSchemaDefinition := some d }, sr.2)

/-- One table's scan-and-diff goroutine (`vertical_split_diff.go:412-456`).
The table scans and the differ run receive the phase's outer context
(tag 0): the source passes `ctx`, not a `remoteActionsTimeout` context.
A `differ.Go` error is only logged (`Errorf2`); it is neither recorded in
the shared recorder nor does it change the worker state. -/
def tableDiff (env : Env) (sr : WState × List String) (t : String) : WState × List String :=
  let s := recordCall sr.1 (.tableScanSource t) 0
  match env.tableScanSource t with
  | .error e => markAsWillFail (s, sr.2) (wrapErr "TableScan(source) failed" e)
  | .ok _ =>
    let s := recordCall s (.tableScanDest t) 0
    match env.tableScanDest t with
    | .error e => markAsWillFail (s, sr.2) (wrapErr "TableScan(destination) failed" e)
    | .ok _ =>
      -- NewRowDiffer is a local constructor over the two readers
      match env.newRowDiffer t with
      | .error e => markAsWillFail (s, sr.2) (wrapErr "NewRowDiffer() failed" e)
      | .ok _ =>
        let s := recordCall s (.differGo t) 0
        match env.differGo t with
        | .error e => (logError s (wrapErr "Differ.Go failed" e), sr.2)
        | .ok report =>
          if report.hasDifferences then
            markAsWillFail (s, sr.2)
              ("table " ++ t ++ " has differences: " ++ report.summary)
          else (s, sr.2)

/-- The two schema-fetch goroutines of the `diff` phase, joined: both
effects are applied, in the completion order given by `destFirst`
(destination launched first in the source; completion order is arbitrary). -/
def schemaFetches (env : Env) (destFirst : Bool) (s : WState) : WState × List String :=
  if destFirst then fetchSourceSchema env (fetchDestinationSchema env (s, []))
  else fetchDestinationSchema env (fetchSourceSchema env (s, []))

/-- The per-table diff loop (`vertical_split_diff.go:407-458`): one
`tableDiff` per entry of the table definitions of the destination schema,
folded over the shared state and recorder.  The Go code dereferences the
destination schema, which is always set when no fetch error occurred; the
`getD []` default is unreachable under the guard in `diffFinish`. -/
def diffTablesLoop (env : Env) (sr : WState × List String) : WState × List String :=
  ((sr.1.destinationSchemaDefinition.map (fun d => d.tableDefinitions)).getD []).foldl
    (fun acc td => tableDiff env acc td.name) sr

/-- The final recorder check of the `diff` phase: `return rec.Error()`. -/
def recResult (sr2 : WState × List String) : WState × Except String Unit :=
  (sr2.1, if sr2.2.isEmpty then .ok () else .error (recErrorStr sr2.2))

/-- Tail of the `diff` phase after the join (`vertical_split_diff.go:393-461`):
abort with the error of the recorder if either schema fetch failed; otherwise
run the external schema comparison (its mismatch messages seed the second
recorder and are only logged as a warning), fold the per-table diffs, and
return the error of the second recorder. -/
def diffFinish (env : Env) (sr : WState × List String) : WState × Except String Unit :=
  if sr.2.isEmpty then recResult (diffTablesLoop env (sr.1, env.diffSchemaErrors))
  else (sr.1, .error (recErrorStr sr.2))

/-- The `diff` phase (`vertical_split_diff.go:358-461`): set the `Diff`
state, fetch both schemas concurrently and join, then `diffFinish`. -/
def diffPhase (env : Env) (destFirst : Bool) (s : WState) : WState × Except String Unit :=
  diffFinish env (schemaFetches env destFirst (setState s .diff))


/-- The main run (`vertical_split_diff.go:139-173`): the four ordered phases
with a cancellation check after each one. -/
def runPhases (env : Env) (cfg : Config) (destFirst : Bool) (s : WState) :
    WState × Option String :=
  match initPhase env cfg s with
  | (s1, .error e) => (s1, some (wrapErr "init() failed" e))
  | (s1, .ok siss) =>
    if env.cancelAfterInit then (s1, some ctxCanceledMsg)
    else
      match findTargetsPhase env s1 with
      | (s2, .error e) => (s2, some (wrapErr "findTargets() failed" e))
      | (s2, .ok _) =>
        if env.cancelAfterFindTargets then (s2, some ctxCanceledMsg)
        else
          match syncPhase env siss.2 s2 with
          | (s3, .error e) => (s3, some (wrapErr "synchronizeReplication() failed" e))
          | (s3, .ok _) =>
            if env.cancelAfterSync then (s3, some ctxCanceledMsg)
            else
              match diffPhase env destFirst s3 with
              | (s4, .error e) => (s4, some (wrapErr "diff() failed" e))
              | (s4, .ok _) =>
                if env.cancelAfterDiff then (s4, some ctxCanceledMsg) else (s4, none)

/-- Modelled from the spec: `wrangler.Cleaner.CleanUp` is not among the
analysed sources.  Per the spec, the compensation chain is consumed exactly
once, in reverse registration order; every action is attempted even when an
earlier one fails, and the failures are combined into the returned error. -/
def cleanUpChain (env : Env) (s : WState) : WState × Option String :=
  let acts := s.cleaner.reverse
  let s := { s with executedCleanup := s.executedCleanup ++ acts }
  let errs := acts.filterMap env.cleanupFails
  (s, if errs.isEmpty then none else some (recErrorStr errs))

/-- Tail of `Run` (`vertical_split_diff.go:122-136`): given the outcome `p`
of the main run, always move to `CleanUp` and execute the compensation chain,
then settle the terminal state: `Error` when the run or the cleanup
produced an error, else `Done`.  A cleanup error arriving on top of a run
error is only logged. -/
def runFinish (env : Env) (p : WState × Option String) : WState × Option String :=
  match cleanUpChain env (setState p.1 .cleanUp) with
  | (s, some cerr) =>
    match p.2 with
    | some e =>
        (setState (logError s (wrapErr "CleanUp failed in addition to job error" cerr)) .error,
          some e)
    | none => (setState s .error, some cerr)
  | (s, none) =>
    match p.2 with
    | some e => (setState s .error, some e)
    | none => (setState s .done, none)

/-- `Run` (`vertical_split_diff.go:118-137`): the main run followed by the
unconditional cleanup and terminal-state settling. -/
def Run (env : Env) (cfg : Config) (destFirst : Bool) : WState × Option String :=
  runFinish env (runPhases env cfg destFirst initialWState)

/-- The configuration used by the concrete scenarios below. -/
def cfgEx : Config := { keyspace := "ks", shard := "dst" }

/-- A baseline oracle: every external interaction succeeds, the destination
shard has one source shard (uid 1, one table `t1`), and `t1` compares
clean. -/
def envOk : Env :=
  { getKeyspace := .ok { servedFroms := [()] }
    getShard := .ok { sourceShards := [{ uid := 1, tables := ["t1"] }], hasPrimary := true }
    cancelAfterInit := false
    cancelAfterFindTargets := false
    cancelAfterSync := false
    cancelAfterDiff := false
    findTabletDest := .ok ()
    findTabletSource := .ok ()
    getTabletMaster := .ok ()
    stopVReplication := .ok ()
    readVReplicationPos := .ok { rows := [["vpos"]] }
    getTabletSource := .ok ()
    stopReplMinSource := .ok "mysqlpos"
    startVReplicationUntil := .ok ()
    vreplicationWaitForPos := .ok ()
    primaryPosition := .ok "masterpos"
    getTabletDest := .ok ()
    stopReplMinDest := .ok "destpos"
    startVReplicationFinal := .ok ()
    getSchemaDest := .ok { tableDefinitions := [{ name := "t1" }] }
    getSchemaSource := .ok { tableDefinitions := [{ name := "t1" }] }
    diffSchemaErrors := []
    tableScanSource := fun _ => .ok ()
    tableScanDest := fun _ => .ok ()
    newRowDiffer := fun _ => .ok ()
    differGo := fun _ => .ok { hasDifferences := false, summary := "" }
    cleanupFails := fun _ => none }

/-- Baseline, except the row differ finds differences in `t1` and every
compensation succeeds: a soft diff failure with a clean cleanup. -/
def envDiffFound : Env :=
  { envOk with differGo := fun _ => .ok { hasDifferences := true, summary := "rows differ" } }

/-- Baseline, except reading the vreplication position fails (a mid-sync
run error after compensations were registered) and every compensation
also fails during cleanup: both the run and the cleanup error. -/
def envBothFail : Env :=
  { envOk with
      readVReplicationPos := .error "boom"
      cleanupFails := fun _ => some "cleanboom" }

/-- Baseline, except the source schema fetch fails; the schema comparison,
were it consulted, would report a mismatch. -/
def envFetchFail : Env :=
  { envOk with
      getSchemaSource := .error "schemaboom"
      diffSchemaErrors := ["schemas differ on t1"] }

/-- Baseline, except `differ.Go` itself fails on `t1` (the row comparison
never completes; no report is produced). -/
def envGoErr : Env :=
  { envOk with differGo := fun _ => .error "stream interrupted" }

/-- Baseline, except the destination shard declares two source shards. -/
def envTwoSources : Env :=
  { envOk with
      getShard := .ok
        { sourceShards := [{ uid := 1, tables := ["t1"] }, { uid := 2, tables := ["t2"] }]
          hasPrimary := true } }

/-- Baseline, except the destination shard has no primary. -/
def envNoPrimary : Env :=
  { envOk with
      getShard := .ok { sourceShards := [{ uid := 1, tables := ["t1"] }], hasPrimary := false } }

/-- The trace discipline: the `SetState` trace is a `stepOK`-chain and ends
at the current state (a fresh worker with an empty trace is in
`notStarted`). -/
def TraceOK (s : WState) : Prop :=
  List.Chain' stepOK s.stateTrace ∧ s.stateTrace.getLast?.getD .notStarted = s.state

/-- Every state set during the four main phases lies strictly between
`notStarted` and `CleanUp` in the canonical order. -/
def PhaseTrace (s : WState) : Prop :=
  ∀ x ∈ s.stateTrace, 1 ≤ x.idx ∧ x.idx ≤ 5

/-- Invariant of the diff phase interior: the trace discipline holds, every
trace entry is a main-phase state, and the current state is `Diff` or
`DiffWillFail`. -/
def DiffInv (sr : WState × List String) : Prop :=
  TraceOK sr.1 ∧ PhaseTrace sr.1
    ∧ (sr.1.state = .diff ∨ sr.1.state = .diffWillFail)

/-! ### Projection lemmas for the elementary effects -/

@[simp] lemma setState_state (s : WState) (x : WorkerState) : (setState s x).state = x := rfl

@[simp] lemma setState_stateTrace (s : WState) (x : WorkerState) :
    (setState s x).stateTrace = s.stateTrace ++ [x] := rfl

@[simp] lemma setState_cleaner (s : WState) (x : WorkerState) :
    (setState s x).cleaner = s.cleaner := rfl

@[simp] lemma setState_executedCleanup (s : WState) (x : WorkerState) :
    (setState s x).executedCleanup = s.executedCleanup := rfl

@[simp] lemma setState_calls (s : WState) (x : WorkerState) : (setState s x).calls = s.calls := rfl

@[simp] lemma setState_logs (s : WState) (x : WorkerState) : (setState s x).logs = s.logs := rfl

@[simp] lemma setState_destSchema (s : WState) (x : WorkerState) :
    (setState s x).destinationSchemaDefinition = s.destinationSchemaDefinition := rfl

@[simp] lemma recordCall_state (s : WState) (c : RemoteCall) (n : Nat) :
    (recordCall s c n).state = s.state := rfl

@[simp] lemma recordCall_stateTrace (s : WState) (c : RemoteCall) (n : Nat) :
    (recordCall s c n).stateTrace = s.stateTrace := rfl

@[simp] lemma recordCall_cleaner (s : WState) (c : RemoteCall) (n : Nat) :
    (recordCall s c n).cleaner = s.cleaner := rfl

@[simp] lemma recordCall_executedCleanup (s : WState) (c : RemoteCall) (n : Nat) :
    (recordCall s c n).executedCleanup = s.executedCleanup := rfl

@[simp] lemma recordCall_calls (s : WState) (c : RemoteCall) (n : Nat) :
    (recordCall s c n).calls = s.calls ++ [(c, n)] := rfl

@[simp] lemma recordCall_logs (s : WState) (c : RemoteCall) (n : Nat) :
    (recordCall s c n).logs = s.logs := rfl

@[simp] lemma recordCall_destSchema (s : WState) (c : RemoteCall) (n : Nat) :
    (recordCall s c n).destinationSchemaDefinition = s.destinationSchemaDefinition := rfl

@[simp] lemma addCleanup_state (s : WState) (a : CleanerAction) :
    (addCleanup s a).state = s.state := rfl

@[simp] lemma addCleanup_stateTrace (s : WState) (a : CleanerAction) :
    (addCleanup s a).stateTrace = s.stateTrace := rfl

@[simp] lemma addCleanup_cleaner (s : WState) (a : CleanerAction) :
    (addCleanup s a).cleaner = s.cleaner ++ [a] := rfl

@[simp] lemma addCleanup_executedCleanup (s : WState) (a : CleanerAction) :
    (addCleanup s a).executedCleanup = s.executedCleanup := rfl

@[simp] lemma addCleanup_calls (s : WState) (a : CleanerAction) :
    (addCleanup s a).calls = s.calls := rfl

@[simp] lemma addCleanup_logs (s : WState) (a : CleanerAction) :
    (addCleanup s a).logs = s.logs := rfl

@[simp] lemma addCleanup_destSchema (s : WState) (a : CleanerAction) :
    (addCleanup s a).destinationSchemaDefinition = s.destinationSchemaDefinition := rfl

@[simp] lemma logError_state (s : WState) (m : String) : (logError s m).state = s.state := rfl

@[simp] lemma logError_stateTrace (s : WState) (m : String) :
    (logError s m).stateTrace = s.stateTrace := rfl

@[simp] lemma logError_cleaner (s : WState) (m : String) :
    (logError s m).cleaner = s.cleaner := rfl

@[simp] lemma logError_executedCleanup (s : WState) (m : String) :
    (logError s m).executedCleanup = s.executedCleanup := rfl

@[simp] lemma logError_calls (s : WState) (m : String) : (logError s m).calls = s.calls := rfl

@[simp] lemma logError_logs (s : WState) (m : String) : (logError s m).logs = s.logs ++ [m] := rfl

@[simp] lemma logError_destSchema (s : WState) (m : String) :
    (logError s m).destinationSchemaDefinition = s.destinationSchemaDefinition := rfl

/-! ### Structural lemmas about the diff-phase building blocks -/

lemma tableDiff_cleaner (env : Env) (sr : WState × List String) (t : String) :
    (tableDiff env sr t).1.cleaner = sr.1.cleaner := by
  unfold tableDiff markAsWillFail
  cases env.tableScanSource t <;> cases env.tableScanDest t <;>
    cases env.newRowDiffer t <;> cases env.differGo t <;>
      simp <;> split <;> simp

lemma tableDiff_executedCleanup (env : Env) (sr : WState × List String) (t : String) :
    (tableDiff env sr t).1.executedCleanup = sr.1.executedCleanup := by
  unfold tableDiff markAsWillFail
  cases env.tableScanSource t <;> cases env.tableScanDest t <;>
    cases env.newRowDiffer t <;> cases env.differGo t <;>
      simp <;> split <;> simp

lemma foldTables_cleaner (env : Env) (l : List TableDefinition) (sr : WState × List String) :
    (l.foldl (fun acc td => tableDiff env acc td.name) sr).1.cleaner = sr.1.cleaner := by
  induction l generalizing sr with
  | nil => rfl
  | cons td rest ih => rw [List.foldl_cons, ih, tableDiff_cleaner]

lemma foldTables_executedCleanup (env : Env) (l : List TableDefinition)
    (sr : WState × List String) :
    (l.foldl (fun acc td => tableDiff env acc td.name) sr).1.executedCleanup
      = sr.1.executedCleanup := by
  induction l generalizing sr with
  | nil => rfl
  | cons td rest ih => rw [List.foldl_cons, ih, tableDiff_executedCleanup]

lemma fetchDestinationSchema_cleaner (env : Env) (sr : WState × List String) :
    (fetchDestinationSchema env sr).1.cleaner = sr.1.cleaner := by
  unfold fetchDestinationSchema markAsWillFail
  cases env.getSchemaDest <;> simp

lemma fetchSourceSchema_cleaner (env : Env) (sr : WState × List String) :
    (fetchSourceSchema env sr).1.cleaner = sr.1.cleaner := by
  unfold fetchSourceSchema markAsWillFail
  cases env.getSchemaSource <;> simp

lemma fetchDestinationSchema_executedCleanup (env : Env) (sr : WState × List String) :
    (fetchDestinationSchema env sr).1.executedCleanup = sr.1.executedCleanup := by
  unfold fetchDestinationSchema markAsWillFail
  cases env.getSchemaDest <;> simp

lemma fetchSourceSchema_executedCleanup (env : Env) (sr : WState × List String) :
    (fetchSourceSchema env sr).1.executedCleanup = sr.1.executedCleanup := by
  unfold fetchSourceSchema markAsWillFail
  cases env.getSchemaSource <;> simp

lemma schemaFetches_cleaner (env : Env) (b : Bool) (s : WState) :
    (schemaFetches env b s).1.cleaner = s.cleaner := by
  unfold schemaFetches
  cases b <;>
    simp [fetchDestinationSchema_cleaner, fetchSourceSchema_cleaner]

lemma schemaFetches_executedCleanup (env : Env) (b : Bool) (s : WState) :
    (schemaFetches env b s).1.executedCleanup = s.executedCleanup := by
  unfold schemaFetches
  cases b <;>
    simp [fetchDestinationSchema_executedCleanup, fetchSourceSchema_executedCleanup]

lemma diffFinish_cleaner (env : Env) (sr : WState × List String) :
    (diffFinish env sr).1.cleaner = sr.1.cleaner := by
  unfold diffFinish recResult diffTablesLoop
  split <;> simp [foldTables_cleaner]

lemma diffFinish_executedCleanup (env : Env) (sr : WState × List String) :
    (diffFinish env sr).1.executedCleanup = sr.1.executedCleanup := by
  unfold diffFinish recResult diffTablesLoop
  split <;> simp [foldTables_executedCleanup]

lemma diffPhase_cleaner (env : Env) (destFirst : Bool) (s : WState) :
    (diffPhase env destFirst s).1.cleaner = s.cleaner := by
  unfold diffPhase
  rw [diffFinish_cleaner, schemaFetches_cleaner, setState_cleaner]

lemma diffPhase_executedCleanup (env : Env) (destFirst : Bool) (s : WState) :
    (diffPhase env destFirst s).1.executedCleanup = s.executedCleanup := by
  unfold diffPhase
  rw [diffFinish_executedCleanup, schemaFetches_executedCleanup, setState_executedCleanup]

/-! ### Structural lemmas about the four phases -/

lemma initPhase_fields (env : Env) (cfg : Config) (s : WState) :
    (initPhase env cfg s).1.state = .init
    ∧ (initPhase env cfg s).1.stateTrace = s.stateTrace ++ [.init]
    ∧ (initPhase env cfg s).1.cleaner = s.cleaner
    ∧ (initPhase env cfg s).1.executedCleanup = s.executedCleanup
    ∧ (initPhase env cfg s).1.logs = s.logs := by
  unfold initPhase
  repeat' split
  all_goals simp

lemma findTargetsPhase_fields (env : Env) (s : WState) :
    (findTargetsPhase env s).1.state = .findTargets
    ∧ (findTargetsPhase env s).1.stateTrace = s.stateTrace ++ [.findTargets]
    ∧ (findTargetsPhase env s).1.executedCleanup = s.executedCleanup
    ∧ (findTargetsPhase env s).1.logs = s.logs := by
  unfold findTargetsPhase
  repeat' split
  all_goals simp

lemma syncPhase_fields (env : Env) (ss : SourceShard) (s : WState) :
    (syncPhase env ss s).1.state = .syncReplication
    ∧ (syncPhase env ss s).1.stateTrace = s.stateTrace ++ [.syncReplication]
    ∧ (syncPhase env ss s).1.executedCleanup = s.executedCleanup
    ∧ (syncPhase env ss s).1.logs = s.logs := by
  unfold syncPhase
  repeat' split
  all_goals simp

lemma runPhases_executedCleanup (env : Env) (cfg : Config) (destFirst : Bool) (s : WState) :
    (runPhases env cfg destFirst s).1.executedCleanup = s.executedCleanup := by
  unfold runPhases
  rcases h1 : initPhase env cfg s with ⟨s1, r1⟩
  have e1 : s1.executedCleanup = s.executedCleanup := by
    have h := (initPhase_fields env cfg s).2.2.2.1
    rw [h1] at h
    exact h
  rcases r1 with e | siss
  · exact e1
  by_cases hc1 : env.cancelAfterInit
  · simp only [hc1, if_true]
    exact e1
  simp only [hc1, if_false]
  rcases h2 : findTargetsPhase env s1 with ⟨s2, r2⟩
  have e2 : s2.executedCleanup = s.executedCleanup := by
    have h := (findTargetsPhase_fields env s1).2.2.1
    rw [h2] at h
    rw [h, e1]
  rcases r2 with e | u
  · exact e2
  by_cases hc2 : env.cancelAfterFindTargets
  · simp only [hc2, if_true]
    exact e2
  simp only [hc2, if_false]
  rcases h3 : syncPhase env siss.2 s2 with ⟨s3, r3⟩
  have e3 : s3.executedCleanup = s.executedCleanup := by
    have h := (syncPhase_fields env siss.2 s2).2.2.1
    rw [h3] at h
    rw [h, e2]
  rcases r3 with e | u
  · exact e3
  by_cases hc3 : env.cancelAfterSync
  · simp only [hc3, if_true]
    exact e3
  simp only [hc3, if_false]
  rcases h4 : diffPhase env destFirst s3 with ⟨s4, r4⟩
  have e4 : s4.executedCleanup = s.executedCleanup := by
    have h := diffPhase_executedCleanup env destFirst s3
    rw [h4] at h
    rw [h, e3]
  rcases r4 with e | u
  · exact e4
  by_cases hc4 : env.cancelAfterDiff
  · simp only [hc4, if_true]
    exact e4
  simp only [hc4, if_false]
  exact e4

/-! ### Lemmas about cleanup and the outer `Run` wrapper -/

@[simp] lemma cleanUpChain_state (env : Env) (s : WState) :
    (cleanUpChain env s).1.state = s.state := rfl

@[simp] lemma cleanUpChain_stateTrace (env : Env) (s : WState) :
    (cleanUpChain env s).1.stateTrace = s.stateTrace := rfl

@[simp] lemma cleanUpChain_cleaner (env : Env) (s : WState) :
    (cleanUpChain env s).1.cleaner = s.cleaner := rfl

@[simp] lemma cleanUpChain_executedCleanup (env : Env) (s : WState) :
    (cleanUpChain env s).1.executedCleanup = s.executedCleanup ++ s.cleaner.reverse := rfl

@[simp] lemma cleanUpChain_calls (env : Env) (s : WState) :
    (cleanUpChain env s).1.calls = s.calls := rfl

@[simp] lemma cleanUpChain_logs (env : Env) (s : WState) :
    (cleanUpChain env s).1.logs = s.logs := rfl

lemma runFinish_fields (env : Env) (p : WState × Option String) :
    (runFinish env p).1.executedCleanup = p.1.executedCleanup ++ p.1.cleaner.reverse
    ∧ (runFinish env p).2 =
        (if p.2.isSome then p.2 else (cleanUpChain env (setState p.1 .cleanUp)).2)
    ∧ (runFinish env p).1.state =
        (if (p.2.isSome || (cleanUpChain env (setState p.1 .cleanUp)).2.isSome)
         then WorkerState.error else WorkerState.done)
    ∧ (runFinish env p).1.logs =
        p.1.logs ++
          (match p.2, (cleanUpChain env (setState p.1 .cleanUp)).2 with
           | some _, some cerr => [wrapErr "CleanUp failed in addition to job error" cerr]
           | _, _ => [])
    ∧ (runFinish env p).1.calls = p.1.calls
    ∧ ((runFinish env p).1.stateTrace
          = p.1.stateTrace ++ [.cleanUp, (runFinish env p).1.state])
    ∧ ((runFinish env p).1.state = .error ∨ (runFinish env p).1.state = .done)
    ∧ (runFinish env p).1.cleaner = p.1.cleaner := by
  unfold runFinish
  rcases hc : cleanUpChain env (setState p.1 .cleanUp) with ⟨s, co⟩
  have hs : s = (cleanUpChain env (setState p.1 .cleanUp)).1 := by rw [hc]
  have hco : co = (cleanUpChain env (setState p.1 .cleanUp)).2 := by rw [hc]
  rcases co with _ | cerr <;> rcases hp : p.2 with _ | e <;>
    simp [hs, hp, ← hco]

lemma runFinish_snd (env : Env) (p : WState × Option String) :
    (runFinish env p).2 =
      (if p.2.isSome then p.2 else (cleanUpChain env (setState p.1 .cleanUp)).2) :=
  (runFinish_fields env p).2.1

lemma runFinish_state (env : Env) (p : WState × Option String) :
    (runFinish env p).1.state =
      (if (p.2.isSome || (cleanUpChain env (setState p.1 .cleanUp)).2.isSome)
       then WorkerState.error else WorkerState.done) :=
  (runFinish_fields env p).2.2.1

lemma runFinish_logs_eq (env : Env) (p : WState × Option String) :
    (runFinish env p).1.logs =
      p.1.logs ++
        (match p.2, (cleanUpChain env (setState p.1 .cleanUp)).2 with
         | some _, some cerr => [wrapErr "CleanUp failed in addition to job error" cerr]
         | _, _ => []) :=
  (runFinish_fields env p).2.2.2.1

lemma runFinish_calls (env : Env) (p : WState × Option String) :
    (runFinish env p).1.calls = p.1.calls :=
  (runFinish_fields env p).2.2.2.2.1

lemma runFinish_trace (env : Env) (p : WState × Option String) :
    (runFinish env p).1.stateTrace
      = p.1.stateTrace ++ [.cleanUp, (runFinish env p).1.state] :=
  (runFinish_fields env p).2.2.2.2.2.1

lemma runFinish_exec (env : Env) (p : WState × Option String) :
    (runFinish env p).1.executedCleanup
      = p.1.executedCleanup ++ p.1.cleaner.reverse :=
  (runFinish_fields env p).1

lemma runFinish_cleaner (env : Env) (p : WState × Option String) :
    (runFinish env p).1.cleaner = p.1.cleaner :=
  (runFinish_fields env p).2.2.2.2.2.2.2

lemma Run_executedCleanup (env : Env) (cfg : Config) (b : Bool) :
    (Run env cfg b).1.executedCleanup
      = (runPhases env cfg b initialWState).1.cleaner.reverse := by
  have h := (runFinish_fields env (runPhases env cfg b initialWState)).1
  rw [runPhases_executedCleanup] at h
  simpa [Run, initialWState] using h

lemma Run_result (env : Env) (cfg : Config) (b : Bool) :
    (Run env cfg b).2 =
      (if (runPhases env cfg b initialWState).2.isSome
       then (runPhases env cfg b initialWState).2
       else (cleanUpChain env (setState (runPhases env cfg b initialWState).1 .cleanUp)).2) :=
  (runFinish_fields env (runPhases env cfg b initialWState)).2.1

lemma Run_state_eq (env : Env) (cfg : Config) (b : Bool) :
    (Run env cfg b).1.state =
      (if ((runPhases env cfg b initialWState).2.isSome
            || (cleanUpChain env
                  (setState (runPhases env cfg b initialWState).1 .cleanUp)).2.isSome)
       then WorkerState.error else WorkerState.done) :=
  (runFinish_fields env (runPhases env cfg b initialWState)).2.2.1

lemma Run_logs (env : Env) (cfg : Config) (b : Bool) :
    (Run env cfg b).1.logs =
      (runPhases env cfg b initialWState).1.logs ++
        (match (runPhases env cfg b initialWState).2,
               (cleanUpChain env
                 (setState (runPhases env cfg b initialWState).1 .cleanUp)).2 with
         | some _, some cerr => [wrapErr "CleanUp failed in addition to job error" cerr]
         | _, _ => []) :=
  (runFinish_fields env (runPhases env cfg b initialWState)).2.2.2.1

/-! ### Claim C1 -/

/-- C1, counterexample.  In the scenario `envDiffFound` the row differ finds
differences in table `t1` (a soft failure: `DiffWillFail` is set during
diffing) and every compensation succeeds, yet the terminal state after `Run`
is `Error`, not `DiffWillFail`: the recorded difference is returned as a run
error, and `Run` settles every erroring run on `Error`.  This refutes the
part of C1 asserting that the terminal state remains observable as the
`DiffWillFail` variant when cleanup succeeded. -/
theorem claim1_counterexample :
    WorkerState.diffWillFail ∈ (Run envDiffFound cfgEx true).1.stateTrace
    ∧ (cleanUpChain envDiffFound
        (setState (runPhases envDiffFound cfgEx true initialWState).1 .cleanUp)).2 = none
    ∧ (Run envDiffFound cfgEx true).1.state = WorkerState.error
    ∧ (Run envDiffFound cfgEx true).1.state ≠ WorkerState.diffWillFail := by
  decide

/-- C1, amended.  After `Run` returns, the terminal state is `Error` exactly
when `Run` returned an error (which includes the case of a soft failure
flagged during diffing, since found differences are returned as a run
error) and `Done` otherwise; the terminal state is never `DiffWillFail` —
that state is only observable while the diff phase is in flight. -/
theorem claim1_amended (env : Env) (cfg : Config) (b : Bool) :
    (Run env cfg b).1.state
        = (if (Run env cfg b).2.isSome then WorkerState.error else WorkerState.done)
    ∧ (Run env cfg b).1.state ≠ WorkerState.diffWillFail := by
  have h1 := Run_state_eq env cfg b
  have h2 := Run_result env cfg b
  constructor
  · rw [h1, h2]
    rcases hp : (runPhases env cfg b initialWState).2 with _ | e <;>
      rcases hc : (cleanUpChain env
          (setState (runPhases env cfg b initialWState).1 .cleanUp)).2 with _ | cerr <;>
        simp
  · rw [h1]
    split <;> simp

/-- C1, witness: the amended theorem applied to the all-success scenario. -/
theorem claim1_witness :
    (Run envOk cfgEx true).1.state
        = (if (Run envOk cfgEx true).2.isSome then WorkerState.error else WorkerState.done)
    ∧ (Run envOk cfgEx true).1.state ≠ WorkerState.diffWillFail :=
  claim1_amended envOk cfgEx true

/-! ### Claim C2 -/

/-- C2, counterexample.  In `envBothFail` the main run fails mid-sync (after
three compensations were registered) and every compensation also fails, so
the cleanup error is present; yet the error `Run` returns is exactly the
wrapped run error — the cleanup error is only written to the log, not
combined into the result.  This refutes the part of C2 asserting that the
returned error is the combination of the run error and the cleanup error. -/
theorem claim2_counterexample :
    (Run envBothFail cfgEx true).2
        = some "synchronizeReplication() failed: VReplicationExec(stop) for master failed: boom"
    ∧ (cleanUpChain envBothFail
        (setState (runPhases envBothFail cfgEx true initialWState).1 .cleanUp)).2
        = some "cleanboom\ncleanboom\ncleanboom"
    ∧ (Run envBothFail cfgEx true).1.logs
        = ["CleanUp failed in addition to job error: cleanboom\ncleanboom\ncleanboom"]
    ∧ (Run envBothFail cfgEx true).1.executedCleanup
        = [.startVReplication 1, .changeTabletTypeSource, .changeTabletTypeDest] := by
  decide

/-- C2, amended.  Cleanup always runs to completion: every registered
compensation is executed (in reverse registration order) whatever the run
outcome.  If only cleanup fails, `Run` returns the cleanup error.  If both
the main run and cleanup fail, `Run` returns the run error alone and the
cleanup error is only logged (`CleanUp failed in addition to job error`),
not combined into the returned error. -/
theorem claim2_amended (env : Env) (cfg : Config) (b : Bool) :
    (Run env cfg b).2 =
      (if (runPhases env cfg b initialWState).2.isSome
       then (runPhases env cfg b initialWState).2
       else (cleanUpChain env (setState (runPhases env cfg b initialWState).1 .cleanUp)).2)
    ∧ (Run env cfg b).1.executedCleanup
        = (runPhases env cfg b initialWState).1.cleaner.reverse
    ∧ (Run env cfg b).1.logs =
        (runPhases env cfg b initialWState).1.logs ++
          (match (runPhases env cfg b initialWState).2,
                 (cleanUpChain env
                   (setState (runPhases env cfg b initialWState).1 .cleanUp)).2 with
           | some _, some cerr => [wrapErr "CleanUp failed in addition to job error" cerr]
           | _, _ => []) :=
  ⟨Run_result env cfg b, Run_executedCleanup env cfg b, Run_logs env cfg b⟩

/-! ### Claim C9 -/

/-- C9.  When `differ.Go` returns an error for a table whose stream setup
succeeded, the error is only logged: the recorder and the worker state are
untouched (first conjunct, an exact equation for `tableDiff` in that case).
Consequently, in the concrete scenario `envGoErr` where the differ of the
only table fails, the diff phase returns no error and `Run` terminates in
`Done` with no `DiffWillFail` ever set, even though `t1` was never fully
compared. -/
theorem claim9_differGo_error_only_logged :
    (∀ (env : Env) (sr : WState × List String) (t e : String),
        env.tableScanSource t = .ok () → env.tableScanDest t = .ok () →
        env.newRowDiffer t = .ok () → env.differGo t = .error e →
        tableDiff env sr t
          = (logError (recordCall (recordCall (recordCall sr.1 (.tableScanSource t) 0)
                (.tableScanDest t) 0) (.differGo t) 0) (wrapErr "Differ.Go failed" e),
             sr.2))
    ∧ (Run envGoErr cfgEx true).2 = none
    ∧ (Run envGoErr cfgEx true).1.state = WorkerState.done
    ∧ WorkerState.diffWillFail ∉ (Run envGoErr cfgEx true).1.stateTrace
    ∧ (RemoteCall.differGo "t1", 0) ∈ (Run envGoErr cfgEx true).1.calls
    ∧ (Run envGoErr cfgEx true).1.logs = ["Differ.Go failed: stream interrupted"] := by
  refine ⟨?_, by decide, by decide, by decide, by decide, by decide⟩
  intro env sr t e h1 h2 h3 h4
  unfold tableDiff
  rw [h1, h2, h3, h4]

/-- C9, witness: the universal conjunct applied at the concrete scenario. -/
theorem claim9_witness :
    tableDiff envGoErr (initialWState, []) "t1"
      = (logError (recordCall (recordCall (recordCall initialWState
            (.tableScanSource "t1") 0) (.tableScanDest "t1") 0) (.differGo "t1") 0)
          (wrapErr "Differ.Go failed" "stream interrupted"),
         []) :=
  claim9_differGo_error_only_logged.1 envGoErr (initialWState, []) "t1" "stream interrupted"
    rfl rfl rfl rfl

/-! ### Claim C3 -/

/-- C3, counterexample.  In `envFetchFail` the source schema fetch fails
while the destination fetch succeeds and lists table `t1`; the run is
flagged will-fail, but the phase does NOT continue: `Run` returns exactly
the fetch error, the schema comparison is never consulted (its pending
mismatch message `schemas differ on t1` appears nowhere in the result), and
no table scan or differ call is ever made for `t1`.  This refutes the part
of C3 asserting that the schema comparison and the per-table row diffs
still execute after a fetch error. -/
theorem claim3_counterexample :
    (Run envFetchFail cfgEx true).2 = some "diff() failed: schemaboom"
    ∧ WorkerState.diffWillFail ∈ (Run envFetchFail cfgEx true).1.stateTrace
    ∧ (Run envFetchFail cfgEx true).1.destinationSchemaDefinition
        = some { tableDefinitions := [{ name := "t1" }] }
    ∧ envFetchFail.diffSchemaErrors = ["schemas differ on t1"]
    ∧ (RemoteCall.tableScanSource "t1", 0) ∉ (Run envFetchFail cfgEx true).1.calls
    ∧ (RemoteCall.tableScanDest "t1", 0) ∉ (Run envFetchFail cfgEx true).1.calls
    ∧ (RemoteCall.differGo "t1", 0) ∉ (Run envFetchFail cfgEx true).1.calls := by
  decide

/-- C3, amended.  The two schema fetches are both performed and joined
(whichever completes first); on either fetch error the run is flagged
will-fail (`DiffWillFail` is set) and the phase returns the accumulated
error immediately: the only remote calls the phase makes are the two
schema fetches — the schema comparison and the per-table row diffs do not
execute. -/
theorem claim3_amended (env : Env) (b : Bool) (s : WState)
    (h : (∃ e, env.getSchemaDest = .error e) ∨ (∃ e, env.getSchemaSource = .error e)) :
    (diffPhase env b s).1.state = WorkerState.diffWillFail
    ∧ (∃ msg, (diffPhase env b s).2 = .error msg)
    ∧ (diffPhase env b s).1.calls = s.calls ++
        (if b then [(.getSchemaDest, 8), (.getSchemaSource, 9)]
         else [(.getSchemaSource, 9), (.getSchemaDest, 8)]) := by
  unfold diffPhase schemaFetches diffFinish recResult diffTablesLoop
    fetchDestinationSchema fetchSourceSchema markAsWillFail
  rcases hd : env.getSchemaDest with ed | d <;>
    rcases hs2 : env.getSchemaSource with es | d2 <;>
      cases b <;> simp_all [recErrorStr]

/-- C3, witness: the amended theorem applied at the concrete scenario. -/
theorem claim3_witness :
    (diffPhase envFetchFail true initialWState).1.state = WorkerState.diffWillFail
    ∧ (∃ msg, (diffPhase envFetchFail true initialWState).2 = .error msg)
    ∧ (diffPhase envFetchFail true initialWState).1.calls = initialWState.calls ++
        (if true then [(.getSchemaDest, 8), (.getSchemaSource, 9)]
         else [(.getSchemaSource, 9), (.getSchemaDest, 8)]) :=
  claim3_amended envFetchFail true initialWState (Or.inr ⟨"schemaboom", rfl⟩)

/-! ### Claims C6 and C10: init validation -/

lemma runPhases_of_initError (env : Env) (cfg : Config) (b : Bool) (s : WState) (e : String)
    (h : (initPhase env cfg s).2 = .error e) :
    runPhases env cfg b s = ((initPhase env cfg s).1, some (wrapErr "init() failed" e)) := by
  unfold runPhases
  rcases hi : initPhase env cfg s with ⟨s1, r1⟩
  rw [hi] at h
  simp only at h
  subst h
  rfl

lemma initPhase_fst_of_reads (env : Env) (cfg : Config) (s : WState)
    (ki : KeyspaceInfo) (si : ShardInfo)
    (hk : env.getKeyspace = .ok ki) (hsf : ki.servedFroms.isEmpty = false)
    (hsh : env.getShard = .ok si) :
    (initPhase env cfg s).1
      = recordCall (recordCall (setState s .init) .getKeyspace 0) .getShard 0 := by
  unfold initPhase
  rw [hk]
  simp only [hsf, Bool.false_eq_true, if_false]
  rw [hsh]
  repeat' split
  all_goals rfl

/-- C6.  Whenever the destination shard declares no source shards, lacks a
primary, or its (single) source-shard entry declares no tables, `init`
fails with one of its configuration errors and the run aborts before
`findTargets` and before any remote mutation: the state trace shows the run
went straight from `Init` to `CleanUp` and `Error`, the only remote calls
are the two topology reads, and the compensation chain stayed empty (so
cleanup had nothing to undo). -/
theorem claim6_init_validation (env : Env) (cfg : Config) (b : Bool)
    (ki : KeyspaceInfo) (si : ShardInfo)
    (hk : env.getKeyspace = .ok ki)
    (hsf : ki.servedFroms.isEmpty = false)
    (hsh : env.getShard = .ok si)
    (hcond : si.sourceShards = [] ∨ si.hasPrimary = false
        ∨ (∃ ss, si.sourceShards = [ss] ∧ ss.tables = [])) :
    (∃ msg, (Run env cfg b).2 = some (wrapErr "init() failed" msg)
      ∧ msg ∈ ["shard " ++ cfg.keyspace ++ "/" ++ cfg.shard ++ " has bad number of source shards",
               "shard " ++ cfg.keyspace ++ "/" ++ cfg.shard ++ " has no tables in source shard[0]",
               "shard " ++ cfg.keyspace ++ "/" ++ cfg.shard ++ " has no master"])
    ∧ (Run env cfg b).1.stateTrace = [.init, .cleanUp, .error]
    ∧ (Run env cfg b).1.calls = [(.getKeyspace, 0), (.getShard, 0)]
    ∧ (Run env cfg b).1.cleaner = []
    ∧ (Run env cfg b).1.executedCleanup = [] := by
  have herr : ∃ msg, (initPhase env cfg initialWState).2 = .error msg
      ∧ msg ∈ ["shard " ++ cfg.keyspace ++ "/" ++ cfg.shard ++ " has bad number of source shards",
               "shard " ++ cfg.keyspace ++ "/" ++ cfg.shard ++ " has no tables in source shard[0]",
               "shard " ++ cfg.keyspace ++ "/" ++ cfg.shard ++ " has no master"] := by
    rcases hcond with h0 | h0 | ⟨ss, hss, hst⟩
    · refine ⟨"shard " ++ cfg.keyspace ++ "/" ++ cfg.shard
        ++ " has bad number of source shards", ?_, by simp⟩
      unfold initPhase
      rw [hk]
      simp [hsf, hsh, h0]
    · rcases hl : si.sourceShards with _ | ⟨ss, _ | ⟨ss2, rest⟩⟩
      · refine ⟨"shard " ++ cfg.keyspace ++ "/" ++ cfg.shard
          ++ " has bad number of source shards", ?_, by simp⟩
        unfold initPhase
        rw [hk]
        simp [hsf, hsh, hl]
      · by_cases hte : ss.tables.isEmpty
        · refine ⟨"shard " ++ cfg.keyspace ++ "/" ++ cfg.shard
            ++ " has no tables in source shard[0]", ?_, by simp⟩
          unfold initPhase
          rw [hk]
          simp [hsf, hsh, hl, hte]
        · refine ⟨"shard " ++ cfg.keyspace ++ "/" ++ cfg.shard
            ++ " has no master", ?_, by simp⟩
          unfold initPhase
          rw [hk]
          simp [hsf, hsh, hl, hte, h0]
      · refine ⟨"shard " ++ cfg.keyspace ++ "/" ++ cfg.shard
          ++ " has bad number of source shards", ?_, by simp⟩
        unfold initPhase
        rw [hk]
        simp [hsf, hsh, hl]
    · refine ⟨"shard " ++ cfg.keyspace ++ "/" ++ cfg.shard
        ++ " has no tables in source shard[0]", ?_, by simp⟩
      unfold initPhase
      rw [hk]
      simp [hsf, hsh, hss, hst]
  obtain ⟨msg, hmsg, hmem⟩ := herr
  have hrp := runPhases_of_initError env cfg b initialWState msg hmsg
  have hfst := initPhase_fst_of_reads env cfg initialWState ki si hk hsf hsh
  refine ⟨⟨msg, ?_, hmem⟩, ?_, ?_, ?_, ?_⟩ <;>
    (unfold Run; rw [hrp, hfst]) <;>
      simp [runFinish_snd, runFinish_state, runFinish_trace, runFinish_calls,
        runFinish_cleaner, runFinish_exec, initialWState]

/-- C6, witness: the theorem applied to the scenario with no primary. -/
theorem claim6_witness :
    ∃ msg, (Run envNoPrimary cfgEx true).2 = some (wrapErr "init() failed" msg)
      ∧ msg ∈ ["shard ks/dst has bad number of source shards",
               "shard ks/dst has no tables in source shard[0]",
               "shard ks/dst has no master"] :=
  (claim6_init_validation envNoPrimary cfgEx true { servedFroms := [()] }
    { sourceShards := [{ uid := 1, tables := ["t1"] }], hasPrimary := false }
    rfl rfl rfl (Or.inr (Or.inl rfl))).1

/-- C10.  Beyond the conditions C6 lists, `init` also requires the keyspace
to declare at least one `ServedFrom` entry, and requires the destination
shard to declare exactly one source shard: a shard declaring any number
other than one — zero, two or more — is rejected with the very same
`bad number of source shards` configuration error. -/
theorem claim10_extra_preconditions (env : Env) (cfg : Config) (b : Bool)
    (ki : KeyspaceInfo) (si : ShardInfo)
    (hk : env.getKeyspace = .ok ki)
    (hsh : env.getShard = .ok si) :
    (ki.servedFroms = [] →
        (Run env cfg b).2 = some (wrapErr "init() failed"
          ("keyspace " ++ cfg.keyspace ++ " has no KeyspaceServedFrom"))
        ∧ (Run env cfg b).1.calls = [(.getKeyspace, 0)])
    ∧ (ki.servedFroms.isEmpty = false → si.sourceShards.length ≠ 1 →
        (Run env cfg b).2 = some (wrapErr "init() failed"
          ("shard " ++ cfg.keyspace ++ "/" ++ cfg.shard
            ++ " has bad number of source shards"))) := by
  constructor
  · intro h0
    have hmsg : (initPhase env cfg initialWState).2
        = .error ("keyspace " ++ cfg.keyspace ++ " has no KeyspaceServedFrom") := by
      unfold initPhase
      rw [hk]
      simp [h0]
    have hfst : (initPhase env cfg initialWState).1
        = recordCall (setState initialWState .init) .getKeyspace 0 := by
      unfold initPhase
      rw [hk]
      simp [h0]
    have hrp := runPhases_of_initError env cfg b initialWState _ hmsg
    constructor <;>
      (unfold Run; rw [hrp, hfst]) <;>
      simp [runFinish_snd, runFinish_calls, initialWState]
  · intro hsf hn
    have hmsg : (initPhase env cfg initialWState).2
        = .error ("shard " ++ cfg.keyspace ++ "/" ++ cfg.shard
            ++ " has bad number of source shards") := by
      rcases hl : si.sourceShards with _ | ⟨ss, _ | ⟨ss2, rest⟩⟩
      · unfold initPhase
        rw [hk]
        simp [hsf, hsh, hl]
      · rw [hl] at hn
        simp at hn
      · unfold initPhase
        rw [hk]
        simp [hsf, hsh, hl]
    have hrp := runPhases_of_initError env cfg b initialWState _ hmsg
    unfold Run
    rw [hrp]
    simp [runFinish_snd]

/-- C10, witness: a destination shard declaring two source shards is
rejected with the `bad number of source shards` configuration error. -/
theorem claim10_witness :
    (Run envTwoSources cfgEx true).2
      = some (wrapErr "init() failed" ("shard ks/dst has bad number of source shards")) :=
  (claim10_extra_preconditions envTwoSources cfgEx true { servedFroms := [()] }
    { sourceShards := [{ uid := 1, tables := ["t1"] }, { uid := 2, tables := ["t2"] }]
      hasPrimary := true }
    rfl rfl).2 rfl (by decide)

/-! ### Claim C5: compensation registration in synchronizeReplication -/

lemma syncPhase_registers_master (env : Env) (ss : SourceShard) (s : WState)
    (hm : env.getTabletMaster = .ok ())
    (hstop : env.stopVReplication = .ok ()) :
    CleanerAction.startVReplication ss.uid ∈ (syncPhase env ss s).1.cleaner := by
  unfold syncPhase
  simp only [hm, hstop]
  repeat' split
  all_goals simp

lemma syncPhase_registers_source (env : Env) (ss : SourceShard) (s : WState)
    (qr : QueryResult) (mp : String)
    (hm : env.getTabletMaster = .ok ())
    (hstop : env.stopVReplication = .ok ())
    (hrd : env.readVReplicationPos = .ok qr)
    (h1 : qr.rows.length = 1) (h2 : (qr.rows.headD []).length = 1)
    (hgs : env.getTabletSource = .ok ())
    (hsrm : env.stopReplMinSource = .ok mp) :
    CleanerAction.startReplicationSource ∈ (syncPhase env ss s).1.cleaner := by
  unfold syncPhase
  simp only [hm, hstop, hrd, hgs, hsrm, h1, h2, ne_eq, not_true_eq_false, or_self, if_false,
    reduceIte]
  repeat' split
  all_goals simp

lemma syncPhase_registers_dest (env : Env) (ss : SourceShard) (s : WState)
    (qr : QueryResult) (mp pp dp : String)
    (hm : env.getTabletMaster = .ok ())
    (hstop : env.stopVReplication = .ok ())
    (hrd : env.readVReplicationPos = .ok qr)
    (h1 : qr.rows.length = 1) (h2 : (qr.rows.headD []).length = 1)
    (hgs : env.getTabletSource = .ok ())
    (hsrm : env.stopReplMinSource = .ok mp)
    (hsu : env.startVReplicationUntil = .ok ())
    (hwp : env.vreplicationWaitForPos = .ok ())
    (hpp : env.primaryPosition = .ok pp)
    (hgd : env.getTabletDest = .ok ())
    (hsd : env.stopReplMinDest = .ok dp) :
    CleanerAction.startReplicationDest ∈ (syncPhase env ss s).1.cleaner := by
  unfold syncPhase
  simp only [hm, hstop, hrd, hgs, hsrm, hsu, hwp, hpp, hgd, hsd, h1, h2, ne_eq,
    not_true_eq_false, or_self, if_false, reduceIte]
  repeat' split
  all_goals simp

lemma runPhases_cleaner_through_sync (env : Env) (cfg : Config) (b : Bool)
    (ki : KeyspaceInfo) (si : ShardInfo) (ss : SourceShard)
    (hk : env.getKeyspace = .ok ki) (hsf : ki.servedFroms.isEmpty = false)
    (hsh : env.getShard = .ok si) (hss : si.sourceShards = [ss])
    (ht : ss.tables.isEmpty = false) (hp : si.hasPrimary = true)
    (hc1 : env.cancelAfterInit = false)
    (hfd : env.findTabletDest = .ok ()) (hfs : env.findTabletSource = .ok ())
    (hc2 : env.cancelAfterFindTargets = false) :
    ∃ s2 : WState,
      (runPhases env cfg b initialWState).1.cleaner = (syncPhase env ss s2).1.cleaner := by
  have hinit2 : (initPhase env cfg initialWState).2 = .ok (si, ss) := by
    unfold initPhase
    rw [hk]
    simp [hsf, hsh, hss, ht, hp]
  unfold runPhases
  rcases h1 : initPhase env cfg initialWState with ⟨s1, r1⟩
  rw [h1] at hinit2
  simp only at hinit2
  subst hinit2
  simp only [hc1, Bool.false_eq_true, if_false]
  have hft2 : (findTargetsPhase env s1).2 = .ok () := by
    unfold findTargetsPhase
    simp [hfd, hfs]
  rcases h2 : findTargetsPhase env s1 with ⟨s2, r2⟩
  rw [h2] at hft2
  simp only at hft2
  subst hft2
  simp only [hc2, Bool.false_eq_true, if_false]
  refine ⟨s2, ?_⟩
  rcases h3 : syncPhase env ss s2 with ⟨s3, r3⟩
  rcases r3 with e | u
  · rfl
  · by_cases hc3 : env.cancelAfterSync
    · simp [hc3]
    · simp only [hc3, Bool.false_eq_true, if_false]
      rcases h4 : diffPhase env b s3 with ⟨s4, r4⟩
      have e4 : s4.cleaner = s3.cleaner := by
        have hd := diffPhase_cleaner env b s3
        rw [h4] at hd
        exact hd
      rcases r4 with e | u2
      · simpa using e4
      · by_cases hc4 : env.cancelAfterDiff
        · simpa [hc4] using e4
        · simpa [hc4] using e4

/-- C5.  Each of the three remote mutations of `synchronizeReplication`
that can succeed — stopping filtered replication on the destination master
(step 1), stopping the source replica (step 2), stopping the destination
replica (step 4) — registers its inverse with the compensation chain
immediately on success, before the phase returns; consequently, whatever
happens later in the run (any later-step failure included), the inverse is
among the compensations executed during cleanup when `Run` returns. -/
theorem claim5_inverse_registration (env : Env) (cfg : Config) (b : Bool)
    (ki : KeyspaceInfo) (si : ShardInfo) (ss : SourceShard)
    (hk : env.getKeyspace = .ok ki) (hsf : ki.servedFroms.isEmpty = false)
    (hsh : env.getShard = .ok si) (hss : si.sourceShards = [ss])
    (ht : ss.tables.isEmpty = false) (hp : si.hasPrimary = true)
    (hc1 : env.cancelAfterInit = false)
    (hfd : env.findTabletDest = .ok ()) (hfs : env.findTabletSource = .ok ())
    (hc2 : env.cancelAfterFindTargets = false)
    (hm : env.getTabletMaster = .ok ()) :
    (env.stopVReplication = .ok () →
        CleanerAction.startVReplication ss.uid ∈ (Run env cfg b).1.executedCleanup)
    ∧ (∀ qr mp, env.stopVReplication = .ok () → env.readVReplicationPos = .ok qr →
        qr.rows.length = 1 → (qr.rows.headD []).length = 1 →
        env.getTabletSource = .ok () → env.stopReplMinSource = .ok mp →
        CleanerAction.startReplicationSource ∈ (Run env cfg b).1.executedCleanup)
    ∧ (∀ qr mp pp dp, env.stopVReplication = .ok () → env.readVReplicationPos = .ok qr →
        qr.rows.length = 1 → (qr.rows.headD []).length = 1 →
        env.getTabletSource = .ok () → env.stopReplMinSource = .ok mp →
        env.startVReplicationUntil = .ok () → env.vreplicationWaitForPos = .ok () →
        env.primaryPosition = .ok pp → env.getTabletDest = .ok () →
        env.stopReplMinDest = .ok dp →
        CleanerAction.startReplicationDest ∈ (Run env cfg b).1.executedCleanup) := by
  obtain ⟨s2, hcl⟩ := runPhases_cleaner_through_sync env cfg b ki si ss
    hk hsf hsh hss ht hp hc1 hfd hfs hc2
  have hmem : ∀ a : CleanerAction, a ∈ (syncPhase env ss s2).1.cleaner →
      a ∈ (Run env cfg b).1.executedCleanup := by
    intro a ha
    rw [Run_executedCleanup, hcl]
    exact List.mem_reverse.mpr ha
  refine ⟨?_, ?_, ?_⟩
  · intro hstop
    exact hmem _ (syncPhase_registers_master env ss s2 hm hstop)
  · intro qr mp hstop hrd h1 h2 hgs hsrm
    exact hmem _ (syncPhase_registers_source env ss s2 qr mp hm hstop hrd h1 h2 hgs hsrm)
  · intro qr mp pp dp hstop hrd h1 h2 hgs hsrm hsu hwp hpp hgd hsd
    exact hmem _ (syncPhase_registers_dest env ss s2 qr mp pp dp hm hstop hrd h1 h2 hgs hsrm
      hsu hwp hpp hgd hsd)

/-- C5, witness: in the all-success scenario all three inverses are among
the executed compensations. -/
theorem claim5_witness :
    CleanerAction.startVReplication 1 ∈ (Run envOk cfgEx true).1.executedCleanup
    ∧ CleanerAction.startReplicationSource ∈ (Run envOk cfgEx true).1.executedCleanup
    ∧ CleanerAction.startReplicationDest ∈ (Run envOk cfgEx true).1.executedCleanup := by
  have h := claim5_inverse_registration envOk cfgEx true { servedFroms := [()] }
    { sourceShards := [{ uid := 1, tables := ["t1"] }], hasPrimary := true }
    { uid := 1, tables := ["t1"] }
    rfl rfl rfl rfl rfl rfl rfl rfl rfl rfl rfl
  exact ⟨h.1 rfl,
    h.2.1 { rows := [["vpos"]] } "mysqlpos" rfl rfl rfl rfl rfl rfl,
    h.2.2 { rows := [["vpos"]] } "mysqlpos" "masterpos" "destpos"
      rfl rfl rfl rfl rfl rfl rfl rfl rfl rfl rfl⟩

/-! ### Claim C7: deadline tags of the remote calls -/

/-- C7, counterexample.  In the all-success scenario the per-table row
stream opens (`TableScan(source)`, `TableScan(destination)`) and the row
differ run for `t1` are performed with context tag 0 — the outer context of the diff
phase — not with a deadline derived from `remoteActionsTimeout`
(the source passes `ctx`, not a `WithTimeout` context, to `TableScan` and
to the readers `differ.Go` consumes).  This refutes the part of C7
asserting that every remote interaction, including opening the per-table
row streams, is bounded by its own `remoteActionsTimeout`-derived
deadline. -/
theorem claim7_counterexample :
    (RemoteCall.tableScanSource "t1", 0) ∈ (Run envOk cfgEx true).1.calls
    ∧ (RemoteCall.tableScanDest "t1", 0) ∈ (Run envOk cfgEx true).1.calls
    ∧ (RemoteCall.differGo "t1", 0) ∈ (Run envOk cfgEx true).1.calls
    ∧ RemoteCall.isRowStreamCall (RemoteCall.tableScanSource "t1") = true := by
  decide

/-- C7, amended.  Every remote call `synchronizeReplication` makes carries
one of the timeout-context tags 1-7 (a `remoteActionsTimeout` deadline,
though calls within one step share their tag, hence their deadline), and
each schema fetch carries its own timeout tag (8, 9); but every call the
per-table diff goroutine adds is a row-stream interaction carried out under
the outer phase context (tag 0), with no remote-action deadline of
its own. -/
theorem claim7_amended :
    (∀ (env : Env) (ss : SourceShard) (s : WState),
        ∀ c ∈ (syncPhase env ss s).1.calls, c ∈ s.calls ∨ (1 ≤ c.2 ∧ c.2 ≤ 7))
    ∧ (∀ (env : Env) (sr : WState × List String) (t : String),
        ∀ c ∈ (tableDiff env sr t).1.calls, c ∈ sr.1.calls
          ∨ (c.2 = 0 ∧ RemoteCall.isRowStreamCall c.1 = true))
    ∧ (∀ (env : Env) (sr : WState × List String),
        ∀ c ∈ (fetchDestinationSchema env sr).1.calls, c ∈ sr.1.calls ∨ c.2 = 8)
    ∧ (∀ (env : Env) (sr : WState × List String),
        ∀ c ∈ (fetchSourceSchema env sr).1.calls, c ∈ sr.1.calls ∨ c.2 = 9) := by
  refine ⟨?_, ?_, ?_, ?_⟩
  · intro env ss s
    unfold syncPhase
    repeat' split
    all_goals
      intro c hc
      simp only [setState_calls, recordCall_calls, addCleanup_calls, List.append_assoc,
        List.singleton_append] at hc
      rcases List.mem_append.mp hc with h | h
      · exact Or.inl h
      · right
        fin_cases h <;> simp
  · intro env sr t
    unfold tableDiff markAsWillFail
    repeat' split
    all_goals
      intro c hc
      simp only [setState_calls, recordCall_calls, logError_calls, List.append_assoc,
        List.singleton_append] at hc
      rcases List.mem_append.mp hc with h | h
      · exact Or.inl h
      · right
        fin_cases h <;> simp [RemoteCall.isRowStreamCall]
  · intro env sr
    unfold fetchDestinationSchema markAsWillFail
    repeat' split
    all_goals
      intro c hc
      simp only [setState_calls, recordCall_calls, List.append_assoc,
        List.singleton_append] at hc
      rcases List.mem_append.mp hc with h | h
      · exact Or.inl h
      · right
        fin_cases h <;> simp
  · intro env sr
    unfold fetchSourceSchema markAsWillFail
    repeat' split
    all_goals
      intro c hc
      simp only [setState_calls, recordCall_calls, List.append_assoc,
        List.singleton_append] at hc
      rcases List.mem_append.mp hc with h | h
      · exact Or.inl h
      · right
        fin_cases h <;> simp

/-- C7, witness: the amended theorem applied to a sync call (tag 2) and to
a row-stream open (tag 0) in the all-success scenario. -/
theorem claim7_witness :
    ((RemoteCall.stopVReplication, 2) ∈ initialWState.calls
        ∨ (1 ≤ ((RemoteCall.stopVReplication, 2) : RemoteCall × Nat).2
            ∧ ((RemoteCall.stopVReplication, 2) : RemoteCall × Nat).2 ≤ 7))
    ∧ ((RemoteCall.tableScanSource "t1", 0) ∈ (initialWState, ([] : List String)).1.calls
        ∨ (((RemoteCall.tableScanSource "t1", 0) : RemoteCall × Nat).2 = 0
            ∧ RemoteCall.isRowStreamCall (RemoteCall.tableScanSource "t1") = true)) :=
  ⟨claim7_amended.1 envOk { uid := 1, tables := ["t1"] } initialWState
      (RemoteCall.stopVReplication, 2) (by decide),
   claim7_amended.2.1 envOk (initialWState, []) "t1"
      (RemoteCall.tableScanSource "t1", 0) (by decide)⟩

/-! ### Claims C8 and C4: the state-machine discipline and cleanup totality -/

lemma TraceOK_push (s t : WState) (x : WorkerState)
    (h : TraceOK s) (hs : stepOK s.state x)
    (htr : t.stateTrace = s.stateTrace ++ [x]) (hst : t.state = x) : TraceOK t := by
  obtain ⟨hch, hlast⟩ := h
  constructor
  · rw [htr, List.chain'_append]
    refine ⟨hch, List.chain'_singleton x, ?_⟩
    intro a ha y hy
    simp only [List.head?_cons, Option.mem_def, Option.some.injEq] at hy
    subst hy
    rw [Option.mem_def] at ha
    rw [ha] at hlast
    simp only [Option.getD_some] at hlast
    rw [hlast]
    exact hs
  · rw [htr, hst, List.getLast?_concat]
    rfl

lemma initial_TraceOK : TraceOK initialWState := by
  constructor
  · simp [initialWState]
  · rfl

lemma PhaseTrace_push (s t : WState) (x : WorkerState)
    (h : PhaseTrace s) (hx : 1 ≤ x.idx ∧ x.idx ≤ 5)
    (htr : t.stateTrace = s.stateTrace ++ [x]) : PhaseTrace t := by
  intro y hy
  rw [htr] at hy
  rcases List.mem_append.mp hy with hmem | hmem
  · exact h y hmem
  · simp only [List.mem_singleton] at hmem
    subst hmem
    exact hx

lemma markAsWillFail_DiffInv (sr : WState × List String) (e : String)
    (h : DiffInv sr) : DiffInv (markAsWillFail sr e) := by
  obtain ⟨ht, hp, hst⟩ := h
  refine ⟨TraceOK_push sr.1 _ .diffWillFail ht ?_ rfl rfl,
    PhaseTrace_push sr.1 _ .diffWillFail hp (by decide) rfl, Or.inr rfl⟩
  rcases hst with h | h
  · rw [h]
    exact Or.inl (by decide)
  · rw [h]
    exact Or.inr ⟨rfl, rfl⟩

lemma fetchDestinationSchema_DiffInv (env : Env) (sr : WState × List String)
    (h : DiffInv sr) : DiffInv (fetchDestinationSchema env sr) := by
  unfold fetchDestinationSchema
  cases env.getSchemaDest with
  | error e => exact markAsWillFail_DiffInv _ e h
  | ok d => exact h

lemma fetchSourceSchema_DiffInv (env : Env) (sr : WState × List String)
    (h : DiffInv sr) : DiffInv (fetchSourceSchema env sr) := by
  unfold fetchSourceSchema
  cases env.getSchemaSource with
  | error e => exact markAsWillFail_DiffInv _ e h
  | ok d => exact h

lemma tableDiff_DiffInv (env : Env) (sr : WState × List String) (t : String)
    (h : DiffInv sr) : DiffInv (tableDiff env sr t) := by
  unfold tableDiff
  repeat' split
  all_goals first
    | exact h
    | exact markAsWillFail_DiffInv _ _ h

lemma foldTables_DiffInv (env : Env) (l : List TableDefinition)
    (sr : WState × List String) (h : DiffInv sr) :
    DiffInv (l.foldl (fun acc td => tableDiff env acc td.name) sr) := by
  induction l generalizing sr with
  | nil => exact h
  | cons td rest ih =>
      rw [List.foldl_cons]
      exact ih _ (tableDiff_DiffInv env sr td.name h)

lemma diffPhase_DiffInv (env : Env) (b : Bool) (s : WState)
    (ht : TraceOK s) (hp : PhaseTrace s) (hs : stepOK s.state .diff) :
    TraceOK (diffPhase env b s).1 ∧ PhaseTrace (diffPhase env b s).1
    ∧ ((diffPhase env b s).1.state = .diff
        ∨ (diffPhase env b s).1.state = .diffWillFail) := by
  have h0 : DiffInv (setState s .diff, ([] : List String)) :=
    ⟨TraceOK_push s _ .diff ht hs rfl rfl,
     PhaseTrace_push s _ .diff hp (by decide) rfl, Or.inl rfl⟩
  have hsr : DiffInv (schemaFetches env b (setState s .diff)) := by
    unfold schemaFetches
    cases b
    · simp only [Bool.false_eq_true, if_false]
      exact fetchDestinationSchema_DiffInv env _ (fetchSourceSchema_DiffInv env _ h0)
    · simp only [if_true]
      exact fetchSourceSchema_DiffInv env _ (fetchDestinationSchema_DiffInv env _ h0)
  unfold diffPhase diffFinish recResult diffTablesLoop
  split
  · have h2 := foldTables_DiffInv env
      (((schemaFetches env b (setState s .diff)).1.destinationSchemaDefinition.map
          (fun d => d.tableDefinitions)).getD [])
      ((schemaFetches env b (setState s .diff)).1, env.diffSchemaErrors) hsr
    exact ⟨h2.1, h2.2.1, h2.2.2⟩
  · exact ⟨hsr.1, hsr.2.1, hsr.2.2⟩

lemma runPhases_TraceOK (env : Env) (cfg : Config) (b : Bool) :
    TraceOK (runPhases env cfg b initialWState).1
    ∧ PhaseTrace (runPhases env cfg b initialWState).1
    ∧ (1 ≤ (runPhases env cfg b initialWState).1.state.idx
        ∧ (runPhases env cfg b initialWState).1.state.idx ≤ 5) := by
  unfold runPhases
  rcases h1 : initPhase env cfg initialWState with ⟨s1, r1⟩
  have f1 := initPhase_fields env cfg initialWState
  rw [h1] at f1
  have t1 : TraceOK s1 :=
    TraceOK_push initialWState s1 .init initial_TraceOK (Or.inl (by decide)) f1.2.1 f1.1
  have p1 : PhaseTrace s1 :=
    PhaseTrace_push initialWState s1 .init
      (by intro x hx; simp [initialWState] at hx) (by decide) f1.2.1
  have b1 : 1 ≤ s1.state.idx ∧ s1.state.idx ≤ 5 := by
    rw [f1.1]
    decide
  rcases r1 with e | siss
  · exact ⟨t1, p1, b1⟩
  by_cases hc1 : env.cancelAfterInit
  · simp only [hc1, if_true]
    exact ⟨t1, p1, b1⟩
  simp only [hc1, Bool.false_eq_true, if_false]
  rcases h2 : findTargetsPhase env s1 with ⟨s2, r2⟩
  have f2 := findTargetsPhase_fields env s1
  rw [h2] at f2
  have t2 : TraceOK s2 :=
    TraceOK_push s1 s2 .findTargets t1 (by rw [f1.1]; exact Or.inl (by decide)) f2.2.1 f2.1
  have p2 : PhaseTrace s2 := PhaseTrace_push s1 s2 .findTargets p1 (by decide) f2.2.1
  have b2 : 1 ≤ s2.state.idx ∧ s2.state.idx ≤ 5 := by
    rw [f2.1]
    decide
  rcases r2 with e | u
  · exact ⟨t2, p2, b2⟩
  by_cases hc2 : env.cancelAfterFindTargets
  · simp only [hc2, if_true]
    exact ⟨t2, p2, b2⟩
  simp only [hc2, Bool.false_eq_true, if_false]
  rcases h3 : syncPhase env siss.2 s2 with ⟨s3, r3⟩
  have f3 := syncPhase_fields env siss.2 s2
  rw [h3] at f3
  have t3 : TraceOK s3 :=
    TraceOK_push s2 s3 .syncReplication t2 (by rw [f2.1]; exact Or.inl (by decide)) f3.2.1 f3.1
  have p3 : PhaseTrace s3 := PhaseTrace_push s2 s3 .syncReplication p2 (by decide) f3.2.1
  have b3 : 1 ≤ s3.state.idx ∧ s3.state.idx ≤ 5 := by
    rw [f3.1]
    decide
  rcases r3 with e | u
  · exact ⟨t3, p3, b3⟩
  by_cases hc3 : env.cancelAfterSync
  · simp only [hc3, if_true]
    exact ⟨t3, p3, b3⟩
  simp only [hc3, Bool.false_eq_true, if_false]
  rcases h4 : diffPhase env b s3 with ⟨s4, r4⟩
  have f4 := diffPhase_DiffInv env b s3 t3 p3 (by rw [f3.1]; exact Or.inl (by decide))
  rw [h4] at f4
  have b4 : 1 ≤ s4.state.idx ∧ s4.state.idx ≤ 5 := by
    rcases f4.2.2 with h | h <;> rw [h] <;> decide
  rcases r4 with e | u
  · exact ⟨f4.1, f4.2.1, b4⟩
  by_cases hc4 : env.cancelAfterDiff
  · simp only [hc4, if_true]
    exact ⟨f4.1, f4.2.1, b4⟩
  simp only [hc4, Bool.false_eq_true, if_false]
  exact ⟨f4.1, f4.2.1, b4⟩

/-- C8.  The worker holds exactly one state at a time (the trace ends at the
current state) and every execution of `Run` — over ALL oracle environments,
i.e. every combination of phase outcomes and cancellations — produces a
`SetState` trace that is a chain of the strictly-forward relation `stepOK`:
each consecutive pair strictly advances in the order
NotStarted, Init, FindTargets, SyncReplication, Diff, DiffWillFail,
CleanUp, Done, Error, with the single permitted self-repetition
`DiffWillFail -> DiffWillFail` for repeated soft failures; no execution
ever revisits an earlier state. -/
theorem claim8_strictly_forward (env : Env) (cfg : Config) (b : Bool) :
    List.Chain' stepOK (Run env cfg b).1.stateTrace
    ∧ (Run env cfg b).1.stateTrace.getLast? = some ((Run env cfg b).1.state) := by
  obtain ⟨ht, hp, hb⟩ := runPhases_TraceOK env cfg b
  have hRun : Run env cfg b = runFinish env (runPhases env cfg b initialWState) := rfl
  have htr := runFinish_trace env (runPhases env cfg b initialWState)
  have hst := (runFinish_fields env (runPhases env cfg b initialWState)).2.2.2.2.2.2.1
  constructor
  · rw [hRun, htr, List.chain'_append]
    refine ⟨ht.1, ?_, ?_⟩
    · rw [List.chain'_cons]
      refine ⟨?_, List.chain'_singleton _⟩
      rcases hst with h | h <;> rw [h] <;> exact Or.inl (by decide)
    · intro a ha y hy
      simp only [List.head?_cons, Option.mem_def, Option.some.injEq] at hy
      subst hy
      rw [Option.mem_def] at ha
      have hlast := ht.2
      rw [ha] at hlast
      simp only [Option.getD_some] at hlast
      rw [hlast]
      exact Or.inl (Nat.lt_of_le_of_lt hb.2 (by decide))
  · rw [hRun, htr, show (runPhases env cfg b initialWState).1.stateTrace
        ++ [WorkerState.cleanUp, (runFinish env (runPhases env cfg b initialWState)).1.state]
      = ((runPhases env cfg b initialWState).1.stateTrace ++ [WorkerState.cleanUp])
        ++ [(runFinish env (runPhases env cfg b initialWState)).1.state] by simp,
      List.getLast?_concat]

/-- C8, witness: the theorem applied to the all-success scenario. -/
theorem claim8_witness :
    List.Chain' stepOK (Run envOk cfgEx true).1.stateTrace
    ∧ (Run envOk cfgEx true).1.stateTrace.getLast? = some ((Run envOk cfgEx true).1.state) :=
  claim8_strictly_forward envOk cfgEx true

/-- C4.  For every outcome of the main run — over ALL oracle environments:
success, an error in any of the four phases, or cancellation detected at any
between-phase check — `Run` transitions to `CleanUp` exactly once (the state
trace contains exactly one `CleanUp` entry) and the compensations executed
before returning are exactly the registered chain, consumed in reverse
registration order. -/
theorem claim4_cleanup_always_once (env : Env) (cfg : Config) (b : Bool) :
    (Run env cfg b).1.executedCleanup
        = (runPhases env cfg b initialWState).1.cleaner.reverse
    ∧ (Run env cfg b).1.stateTrace.count WorkerState.cleanUp = 1 := by
  refine ⟨Run_executedCleanup env cfg b, ?_⟩
  obtain ⟨ht, hp, hb⟩ := runPhases_TraceOK env cfg b
  have hRun : Run env cfg b = runFinish env (runPhases env cfg b initialWState) := rfl
  have htr := runFinish_trace env (runPhases env cfg b initialWState)
  have hst := (runFinish_fields env (runPhases env cfg b initialWState)).2.2.2.2.2.2.1
  rw [hRun, htr, List.count_append]
  have hzero : (runPhases env cfg b initialWState).1.stateTrace.count WorkerState.cleanUp
      = 0 := by
    rw [List.count_eq_zero]
    intro hmem
    exact absurd (hp _ hmem).2 (by decide)
  rw [hzero]
  rcases hst with h | h <;> rw [h] <;> decide

end Worker
